import Mathlib

/-!
Shallow embedding of the Redis-Go repository (GokhanKabar/Redis-Go) for
checking its natural-language specification.

Sources embedded:
  * `internal/database/database.go` — the in-memory data engine (`Database`,
    `Value`, `Set`, `Get`, `Del`, `Exists`, `Expire`, `TTL`, `Keys`,
    `isExpired`, `HSet`, `HGet`, `HDel`).
  * the server command dispatcher (`executeCommand`, `isWriteCommand`, and
    the `handle*` command handlers).
  * `internal/persistence/persistence.go` — `WriteAOF`, `LoadAOF`,
    `SaveRDB`, `LoadRDB`.
  * the per-connection read loop (`handleConnection`, `readRESPArray`,
    `readBulkString`).

Modelling conventions:
  * Go `map[string]T` becomes an association list `List (String × T)` with
    assignment (`ainsert`, overwrite-or-append), deletion (`aerase`) and
    lookup (`alookup`); iteration order of a Go map is unspecified, the
    list order stands in for one such order.
  * `time.Time` becomes an `Int` of nanoseconds since an arbitrary epoch;
    functions that call `time.Now()` take the current instant `now : Int`
    as an explicit argument.  `time.Duration(seconds) * time.Second` is
    `seconds * 1000000000` nanoseconds, and `t.After(u)` is `t > u`.
  * Go `int64` arithmetic wraps modulo 2^64; `wrap64` applies that
    reduction where the source increments or decrements.
  * Printing (`fmt.Printf`) and file I/O are dropped; the AOF file becomes
    the list of appended records, the RDB file becomes the encoded payload.
  * Locking (`sync.RWMutex`) is dropped: each operation is modelled as the
    atomic state transformation performed under the lock.
-/

namespace RedisGo

/-! ### Go `strconv` -/

/-- Decimal digits to a natural number; `none` when the list is empty or
contains a non-digit.  Helper for `parseInt64`. -/
def parseDigits (cs : List Char) : Option Nat :=
  if cs = [] then none
  else if cs.all Char.isDigit then
    some (cs.foldl (fun acc c => acc * 10 + (c.toNat - 48)) 0)
  else none

def int64Max : Int := 9223372036854775807
def int64Min : Int := -9223372036854775808

/-- Go `strconv.ParseInt(s, 10, 64)` (also `strconv.Atoi` on a 64-bit
platform): optional sign, one or more decimal digits, value within the
signed 64-bit range; any other input (or an out-of-range value) is an
error, modelled as `none`. -/
def parseInt64 (s : String) : Option Int :=
  match s.toList with
  | '+' :: rest =>
      match parseDigits rest with
      | some n => if (n : Int) ≤ int64Max then some (n : Int) else none
      | none => none
  | '-' :: rest =>
      match parseDigits rest with
      | some n => if (n : Int) ≤ -int64Min then some (-(n : Int)) else none
      | none => none
  | cs =>
      match parseDigits cs with
      | some n => if (n : Int) ≤ int64Max then some (n : Int) else none
      | none => none

/-- Reduction of an integer into the signed 64-bit range, the effect of Go
`int64` overflow (two's-complement wraparound). -/
def wrap64 (n : Int) : Int :=
  (n + 2 ^ 63) % 2 ^ 64 - 2 ^ 63

/-- Go `strconv.FormatInt(i, 10)`: decimal rendering with a leading minus
sign for negative values, which is exactly Lean's `toString` on `Int`. -/
def formatInt (i : Int) : String := toString i

/-! ### Association lists standing in for Go maps -/

/-- Map assignment `m[k] = v`: overwrite the first binding of `k`, or
append a new binding. -/
def ainsert {α : Type} : List (String × α) → String → α → List (String × α)
  | [], k, v => [(k, v)]
  | (k', v') :: rest, k, v =>
      if k' = k then (k, v) :: rest else (k', v') :: ainsert rest k v

/-- Map deletion `delete(m, k)`. -/
def aerase {α : Type} (l : List (String × α)) (k : String) : List (String × α) :=
  l.filter (fun p => p.1 ≠ k)

/-- Map lookup `v, ok := m[k]`. -/
def alookup {α : Type} : List (String × α) → String → Option α
  | [], _ => none
  | (k', v') :: rest, k => if k' = k then some v' else alookup rest k

/-! ### `internal/database/database.go` -/

/-- The `ValueType` string constants. -/
inductive ValueType
  | string
  | hash
  | list
  | set
  deriving DecidableEq, Repr

/-- The `Value` struct.  Go zero values stand as field defaults.  The
`ExpireAt` field exists in the struct but is never read or written by any
operation; expiry lives in the separate `expiry` map. -/
structure Value where
  type : ValueType
  strVal : String := ""
  hashVal : List (String × String) := []
  listVal : List String := []
  setVal : List String := []
  expireAt : Option Int := none
  deriving DecidableEq, Repr

/-- The `Database` struct: the `data` and `expiry` maps (the mutex and the
shutdown channel carry no state relevant to the commands). -/
structure Database where
  data : List (String × Value) := []
  expiry : List (String × Int) := []
  deriving DecidableEq, Repr

namespace Database

/-- `isExpired`: a key is expired when it has an expiry entry and
`time.Now().After(expiry)` holds, i.e. `now > expiry`. -/
def isExpired (db : Database) (now : Int) (key : String) : Bool :=
  match alookup db.expiry key with
  | none => false
  | some e => now > e

/-- `Set`: store a fresh string `Value` and delete any expiry entry. -/
def Set (db : Database) (key value : String) : Database :=
  { data := ainsert db.data key ({ type := ValueType.string, strVal := value })
    expiry := aerase db.expiry key }

/-- `Get`: lazy expiry (delete the key and its expiry entry when expired),
then return the string value when the key holds one.  Returns the possibly
mutated database alongside the `(value, exists)` pair. -/
def Get (db : Database) (now : Int) (key : String) :
    (String × Bool) × Database :=
  if db.isExpired now key then
    (("", false), { data := aerase db.data key, expiry := aerase db.expiry key })
  else
    match alookup db.data key with
    | none => (("", false), db)
    | some v =>
        if v.type = ValueType.string then ((v.strVal, true), db)
        else (("", false), db)

/-- `Del`: remove the key and its expiry entry, reporting whether the key
was present. -/
def Del (db : Database) (key : String) : Bool × Database :=
  match alookup db.data key with
  | some _ =>
      (true, { data := aerase db.data key, expiry := aerase db.expiry key })
  | none => (false, db)

/-- `Exists`: lazy expiry, then presence in the `data` map. -/
def Exists (db : Database) (now : Int) (key : String) : Bool × Database :=
  if db.isExpired now key then
    (false, { data := aerase db.data key, expiry := aerase db.expiry key })
  else
    match alookup db.data key with
    | some _ => (true, db)
    | none => (false, db)

/-- `Expire`: refuse when the key is absent from `data` (no expiry check),
otherwise set the expiry instant.  Go computes
`time.Duration(seconds) * time.Second`, an `int64` multiplication that
wraps on overflow, and adds the wrapped duration to `time.Now()`: the
instant stored is `now + wrap64 (seconds * 10^9)`. -/
def Expire (db : Database) (now : Int) (key : String) (seconds : Int) :
    Bool × Database :=
  match alookup db.data key with
  | none => (false, db)
  | some _ =>
      (true, { db with expiry := ainsert db.expiry key (now + wrap64 (seconds * 1000000000)) })

/-- `TTL`: −2 when absent, −1 when no expiry entry, −2 (with deletion)
when the remaining time is ≤ 0, otherwise the remaining seconds.  Go
computes `expiry.Sub(now).Seconds()` as a `float64` and converts with
`int64(...)`, truncating toward zero; for the nanosecond differences in
range that is integer division of the (positive) difference by 10^9. -/
def TTL (db : Database) (now : Int) (key : String) : Int × Database :=
  match alookup db.data key with
  | none => (-2, db)
  | some _ =>
      match alookup db.expiry key with
      | none => (-1, db)
      | some e =>
          if e - now ≤ 0 then
            (-2, { data := aerase db.data key, expiry := aerase db.expiry key })
          else ((e - now) / 1000000000, db)

/-- `Keys`: all keys of `data` that are not expired (no deletion). -/
def Keys (db : Database) (now : Int) : List String :=
  (db.data.map Prod.fst).filter (fun k => ¬ db.isExpired now k)

/-- `HSet`: create a hash value when the key is absent; when the key holds
a non-hash value, retype it in place to a fresh hash; then assign the
field. -/
def HSet (db : Database) (key field value : String) : Database :=
  match alookup db.data key with
  | none =>
      let fresh : Value := { type := ValueType.hash, hashVal := [(field, value)] }
      { db with data := ainsert db.data key fresh }
  | some v =>
      if v.type = ValueType.hash then
        let v1 : Value := { v with hashVal := ainsert v.hashVal field value }
        { db with data := ainsert db.data key v1 }
      else
        let v1 : Value := { v with type := ValueType.hash, hashVal := [(field, value)] }
        { db with data := ainsert db.data key v1 }

/-- `HGet`: expiry check without deletion, then field lookup in a hash
value. -/
def HGet (db : Database) (now : Int) (key field : String) : String × Bool :=
  if db.isExpired now key then ("", false)
  else
    match alookup db.data key with
    | none => ("", false)
    | some v =>
        if v.type = ValueType.hash then
          match alookup v.hashVal field with
          | some x => (x, true)
          | none => ("", false)
        else ("", false)

/-- `HDel`: remove one field from a hash value, reporting whether it was
present. -/
def HDel (db : Database) (key field : String) : Bool × Database :=
  match alookup db.data key with
  | none => (false, db)
  | some v =>
      if v.type = ValueType.hash then
        match alookup v.hashVal field with
        | some _ =>
            let v1 : Value := { v with hashVal := aerase v.hashVal field }
            (true, { db with data := ainsert db.data key v1 })
        | none => (false, db)
      else (false, db)

end Database

/-! ### Protocol values (the `protocol` package) -/

/-- The `RESPType` byte constants. -/
inductive RESPType
  | simpleString
  | error
  | integer
  | bulkString
  | array
  deriving DecidableEq, Repr

/-- The `RESPValue` struct, Go zero values as field defaults (the nested
`arr` field admits no default value in Lean, so the constructors below
spell it out). -/
structure RESPValue where
  type : RESPType
  str : String := ""
  num : Int := 0
  arr : List RESPValue
  null : Bool := false

def errResp (m : String) : RESPValue :=
  { type := RESPType.error, str := m, arr := [] }

def intResp (n : Int) : RESPValue :=
  { type := RESPType.integer, num := n, arr := [] }

def bulkResp (s : String) : RESPValue :=
  { type := RESPType.bulkString, str := s, arr := [] }

def nullBulk : RESPValue :=
  { type := RESPType.bulkString, null := true, arr := [] }

def simpleResp (s : String) : RESPValue :=
  { type := RESPType.simpleString, str := s, arr := [] }

/-! ### The command handlers (server package, `handle*` methods)

Each handler takes the parsed argument list, the database, and the current
instant, and returns the response together with the database after the
call, mirroring the Go methods on `*Server`. -/

def handlePing (args : List String) : RESPValue :=
  match args with
  | [] => simpleResp "PONG"
  | a :: _ => bulkResp a

def handleSet (args : List String) (db : Database) : RESPValue × Database :=
  match args with
  | key :: value :: _ => (simpleResp "OK", db.Set key value)
  | _ => (errResp "ERR wrong number of arguments for 'set' command", db)

def handleGet (args : List String) (db : Database) (now : Int) :
    RESPValue × Database :=
  match args with
  | [key] =>
      let ((value, ex), db') := db.Get now key
      if ex then (bulkResp value, db') else (nullBulk, db')
  | _ => (errResp "ERR wrong number of arguments for 'get' command", db)

def handleDel (args : List String) (db : Database) : RESPValue × Database :=
  match args with
  | [] => (errResp "ERR wrong number of arguments for 'del' command", db)
  | _ =>
      let (deleted, db') := args.foldl
        (fun (acc : Nat × Database) key =>
          let (b, d) := acc.2.Del key
          (if b then acc.1 + 1 else acc.1, d))
        (0, db)
      (intResp (deleted : Int), db')

def handleExists (args : List String) (db : Database) (now : Int) :
    RESPValue × Database :=
  match args with
  | [] => (errResp "ERR wrong number of arguments for 'exists' command", db)
  | _ =>
      let (count, db') := args.foldl
        (fun (acc : Nat × Database) key =>
          let (b, d) := acc.2.Exists now key
          (if b then acc.1 + 1 else acc.1, d))
        (0, db)
      (intResp (count : Int), db')

def handleExpire (args : List String) (db : Database) (now : Int) :
    RESPValue × Database :=
  match args with
  | [key, secStr] =>
      match parseInt64 secStr with
      | none => (errResp "ERR value is not an integer or out of range", db)
      | some seconds =>
          let (ok, db') := db.Expire now key seconds
          (if ok then intResp 1 else intResp 0, db')
  | _ => (errResp "ERR wrong number of arguments for 'expire' command", db)

def handleTTL (args : List String) (db : Database) (now : Int) :
    RESPValue × Database :=
  match args with
  | [key] =>
      let (t, db') := db.TTL now key
      (intResp t, db')
  | _ => (errResp "ERR wrong number of arguments for 'ttl' command", db)

/-- `handleKeys` ignores its arguments entirely. -/
def handleKeys (db : Database) (now : Int) : RESPValue :=
  { type := RESPType.array, arr := (db.Keys now).map bulkResp }

def handleHSet (args : List String) (db : Database) : RESPValue × Database :=
  match args with
  | [key, field, value] => (intResp 1, db.HSet key field value)
  | _ => (errResp "ERR wrong number of arguments for 'hset' command", db)

def handleHGet (args : List String) (db : Database) (now : Int) :
    RESPValue × Database :=
  match args with
  | [key, field] =>
      let (value, ex) := db.HGet now key field
      (if ex then bulkResp value else nullBulk, db)
  | _ => (errResp "ERR wrong number of arguments for 'hget' command", db)

def handleHDel (args : List String) (db : Database) : RESPValue × Database :=
  match args with
  | key :: f :: fs =>
      let (deleted, db') := (f :: fs).foldl
        (fun (acc : Nat × Database) field =>
          let (b, d) := acc.2.HDel key field
          (if b then acc.1 + 1 else acc.1, d))
        (0, db)
      (intResp (deleted : Int), db')
  | _ => (errResp "ERR wrong number of arguments for 'hdel' command", db)

/-- `handleIncr`: read the key (lazy-expiring), parse the stored string as
a signed 64-bit integer (absent means 0), increment with Go `int64`
wraparound, store the result through `Database.Set`, and answer the new
value. -/
def handleIncr (args : List String) (db : Database) (now : Int) :
    RESPValue × Database :=
  match args with
  | [key] =>
      let ((value, ex), db') := db.Get now key
      if ex then
        match parseInt64 value with
        | none => (errResp "ERR value is not an integer or out of range", db')
        | some num =>
            let intValue := wrap64 (num + 1)
            (intResp intValue, db'.Set key (formatInt intValue))
      else
        let intValue := wrap64 (0 + 1)
        (intResp intValue, db'.Set key (formatInt intValue))
  | _ => (errResp "ERR wrong number of arguments for 'incr' command", db)

/-- `handleDecr`: as `handleIncr` with a decrement. -/
def handleDecr (args : List String) (db : Database) (now : Int) :
    RESPValue × Database :=
  match args with
  | [key] =>
      let ((value, ex), db') := db.Get now key
      if ex then
        match parseInt64 value with
        | none => (errResp "ERR value is not an integer or out of range", db')
        | some num =>
            let intValue := wrap64 (num - 1)
            (intResp intValue, db'.Set key (formatInt intValue))
      else
        let intValue := wrap64 (0 - 1)
        (intResp intValue, db'.Set key (formatInt intValue))
  | _ => (errResp "ERR wrong number of arguments for 'decr' command", db)

/-! ### The dispatcher (`executeCommand`) and the AOF -/

/-- Go `strings.ToUpper` applied to the command verb.  `Char.toUpper`
agrees with `unicode.ToUpper` on ASCII, which covers every verb the
dispatcher compares against. -/
def toUpperGo (s : String) : String := String.mk (s.data.map Char.toUpper)

/-- `isWriteCommand`. -/
def isWriteCommand (command : String) : Bool :=
  command = "SET" ∨ command = "DEL" ∨ command = "EXPIRE" ∨ command = "HSET" ∨
    command = "HDEL" ∨ command = "INCR" ∨ command = "DECR"

/-- The AOF record built in `executeCommand`: the upper-cased verb followed
by each argument joined with a single space. -/
def joinArgs (command : String) (args : List String) : String :=
  args.foldl (fun acc a => acc ++ " " ++ a) command

/-- `WriteAOF`: append one record to the log (file I/O modelled as the
list of records written, each record one line of the file). -/
def WriteAOF (aof : List String) (command : String) : List String :=
  aof ++ [command]

/-- Server state visible to `executeCommand`: the database and the AOF
records appended so far. -/
structure ServerState where
  db : Database := {}
  aof : List String := []
  deriving DecidableEq, Repr

/-- The `switch command` statement of `executeCommand`. -/
def dispatch (command : String) (args : List String) (db : Database)
    (now : Int) : RESPValue × Database :=
  if command = "PING" then (handlePing args, db)
  else if command = "SET" then handleSet args db
  else if command = "GET" then handleGet args db now
  else if command = "DEL" then handleDel args db
  else if command = "EXISTS" then handleExists args db now
  else if command = "EXPIRE" then handleExpire args db now
  else if command = "TTL" then handleTTL args db now
  else if command = "KEYS" then (handleKeys db now, db)
  else if command = "HSET" then handleHSet args db
  else if command = "HGET" then handleHGet args db now
  else if command = "HDEL" then handleHDel args db
  else if command = "INCR" then handleIncr args db now
  else if command = "DECR" then handleDecr args db now
  else (errResp ("ERR unknown command '" ++ command ++ "'"), db)

/-- `executeCommand`: the command arrives as the list of bulk-string
elements of the request array (`handleConnection` always builds such an
array, so the `cmd.Type != Array` guard reduces to the emptiness check).
The verb is upper-cased; if it is a write command the space-joined record
is appended to the AOF *before* dispatch and regardless of the dispatch
outcome, exactly as in the source. -/
def executeCommand (s : ServerState) (now : Int) (cmd : List String) :
    RESPValue × ServerState :=
  match cmd with
  | [] => (errResp "ERR invalid command format", s)
  | c0 :: rest =>
      let command := toUpperGo c0
      let aof' := if isWriteCommand command then WriteAOF s.aof (joinArgs command rest)
                  else s.aof
      let (resp, db') := dispatch command rest s.db now
      (resp, { db := db', aof := aof' })

/-- Live execution of a command sequence, threading the server state. -/
def runCommands (s : ServerState) (now : Int) (cmds : List (List String)) :
    ServerState :=
  cmds.foldl (fun st c => (executeCommand st now c).2) s

/-! ### `internal/persistence/persistence.go` -/

/-- `LoadAOF`: the source scans the log line by line and only prints
"Replaying command: %s" for each one — no command is ever dispatched or
applied, so the database is returned unchanged. -/
def LoadAOF (db : Database) (lines : List String) : Database :=
  lines.foldl (fun acc _line => acc) db

/-- A value of the gob-encoded `map[string]interface{}` payload written by
`SaveRDB`: either a string value or an `int64` TTL. -/
inductive RDBVal
  | str (s : String)
  | num (n : Int)
  deriving DecidableEq, Repr

/-- `SaveRDB`: iterate `Keys()`; for each key store the `Get` result when
it exists (hence only string values), and under the derived key
`key ++ "__ttl__"` the `TTL` when it is positive.  `Get` and `TTL` can
mutate the database (lazy expiry), so the possibly mutated database is
returned with the payload.  The metadata header (version, timestamp) is
ignored by `LoadRDB` and omitted here. -/
def SaveRDB (db : Database) (now : Int) : List (String × RDBVal) × Database :=
  (db.Keys now).foldl
    (fun (acc : List (String × RDBVal) × Database) key =>
      let (payload, d) := acc
      let ((value, ex), d1) := d.Get now key
      let payload1 := if ex then ainsert payload key (RDBVal.str value) else payload
      let (t, d2) := d1.TTL now key
      let payload2 := if t > 0 then ainsert payload1 (key ++ "__ttl__") (RDBVal.num t)
                      else payload1
      (payload2, d2))
    ([], db)

/-- `LoadRDB`: for each payload entry whose value is a string, `Set` it;
every non-string entry (in particular every `__ttl__` record) is silently
dropped, and no expiry is ever restored. -/
def LoadRDB (db : Database) (payload : List (String × RDBVal)) : Database :=
  payload.foldl
    (fun d kv =>
      match kv.2 with
      | RDBVal.str s => d.Set kv.1 s
      | RDBVal.num _ => d)
    db

/-! ### The per-connection read loop (`handleConnection`, `readRESPArray`,
`readBulkString`)

The buffered reader over the TCP stream is modelled as the list of bytes
(characters) not yet consumed.  Each reading function returns its result
together with the remaining stream. -/

/-- Go `unicode.IsSpace` on the ASCII range, which is all the framing
code can meet inside a length line. -/
def isSpaceGo (c : Char) : Bool :=
  c = ' ' ∨ c = '\t' ∨ c = '\n' ∨ c = '\r' ∨ c = '\x0b' ∨ c = '\x0c'

/-- Go `strings.TrimSpace`: drop whitespace from both ends. -/
def trimSpaceGo (s : String) : String :=
  String.mk (((s.data.dropWhile isSpaceGo).reverse.dropWhile isSpaceGo).reverse)

/-- `reader.ReadByte()`: `none` is `io.EOF`. -/
def readByte (input : List Char) : Option (Char × List Char) :=
  match input with
  | [] => none
  | c :: rest => some (c, rest)

/-- `reader.ReadString('\n')`: everything up to and including the first
newline.  The `Bool` records whether the delimiter was found; when it was
not, Go additionally returns an error and the data read so far, with the
stream exhausted. -/
def readLine : List Char → List Char × List Char × Bool
  | [] => ([], [], false)
  | c :: rest =>
      if c = '\n' then ([c], rest, true)
      else
        let (l, r, f) := readLine rest
        (c :: l, r, f)

/-- Outcome of `readBulkString`: a value, a returned error (surfaced to
`readRESPArray`, which wraps it into a non-EOF error), or `fatal` — the
unrecovered `make([]byte, length)` panic on a length below −1, which
kills the whole process (there is no `recover` anywhere in the program). -/
inductive BulkOutcome
  | ok (s : String)
  | err
  | fatal
  deriving DecidableEq, Repr

/-- `readBulkString`: a `$` type byte, a length line, then the payload and
its trailing line.  A length of −1 denotes the null bulk string (returned
as `""`), a length of 0 consumes only the terminator line; any other
negative length reaches `make([]byte, length)` and panics (`fatal`). -/
def readBulkStringM (input : List Char) : BulkOutcome × List Char :=
  match readByte input with
  | none => (BulkOutcome.err, [])
  | some (tb, rest) =>
      if tb ≠ '$' then (BulkOutcome.err, rest)
      else
        let (line, rest1, found) := readLine rest
        if ¬ found then (BulkOutcome.err, rest1)
        else
          match parseInt64 (trimSpaceGo (String.mk line)) with
          | none => (BulkOutcome.err, rest1)
          | some length =>
              if length = -1 then (BulkOutcome.ok "", rest1)
              else if length = 0 then
                let (_, rest2, found2) := readLine rest1
                if found2 then (BulkOutcome.ok "", rest2)
                else (BulkOutcome.err, rest2)
              else if length < 0 then (BulkOutcome.fatal, rest1)
              else
                if rest1.length < length.toNat then (BulkOutcome.err, [])
                else
                  let payload := rest1.take length.toNat
                  let rest2 := rest1.drop length.toNat
                  let (_, rest3, found3) := readLine rest2
                  if found3 then (BulkOutcome.ok (String.mk payload), rest3)
                  else (BulkOutcome.err, rest3)

/-- Outcome of the bulk-string loop of `readRESPArray`. -/
inductive BulksResult
  | ok (ss : List String)
  | err
  | fatal
  deriving Repr

/-- The bulk-string loop of `readRESPArray`; a panic inside
`readBulkString` propagates. -/
def readBulks : Nat → List Char → BulksResult × List Char
  | 0, input => (BulksResult.ok [], input)
  | n + 1, input =>
      match readBulkStringM input with
      | (BulkOutcome.fatal, rest) => (BulksResult.fatal, rest)
      | (BulkOutcome.err, rest) => (BulksResult.err, rest)
      | (BulkOutcome.ok s, rest) =>
          match readBulks n rest with
          | (BulksResult.fatal, rest2) => (BulksResult.fatal, rest2)
          | (BulksResult.err, rest2) => (BulksResult.err, rest2)
          | (BulksResult.ok ss, rest2) => (BulksResult.ok (s :: ss), rest2)

/-- Outcome of reading one frame: `eof` is a bare `io.EOF` from the first
`ReadByte` (the only error `handleConnection` compares with `io.EOF`);
`protocol` is every other returned error (wrapped with context by the
source, hence never `== io.EOF`); `fatal` is the propagated
`make([]byte, negative)` panic.  Error message text is abstracted away. -/
inductive FrameOutcome
  | ok (cmd : List String)
  | eof
  | protocol
  | fatal
  deriving Repr

/-- `readRESPArray`: a `*` type byte, a length line, then that many bulk
strings.  A non-positive length yields the empty command. -/
def readRESPArrayM (input : List Char) : FrameOutcome × List Char :=
  match readByte input with
  | none => (FrameOutcome.eof, [])
  | some (tb, rest) =>
      if tb ≠ '*' then (FrameOutcome.protocol, rest)
      else
        let (line, rest1, found) := readLine rest
        if ¬ found then (FrameOutcome.protocol, rest1)
        else
          match parseInt64 (trimSpaceGo (String.mk line)) with
          | none => (FrameOutcome.protocol, rest1)
          | some length =>
              if length ≤ 0 then (FrameOutcome.ok [], rest1)
              else
                match readBulks length.toNat rest1 with
                | (BulksResult.fatal, rest2) => (FrameOutcome.fatal, rest2)
                | (BulksResult.err, rest2) => (FrameOutcome.protocol, rest2)
                | (BulksResult.ok cmd, rest2) => (FrameOutcome.ok cmd, rest2)

/-- One event written back to the client by the `handleConnection` loop.
`protocolError` is `client.WriteError("ERR " + err.Error())` after a
failed frame read, `emptyCommand` is `client.WriteError("ERR empty
command")`, and `reply` is the response of `executeCommand`. -/
inductive ConnReply
  | protocolError
  | emptyCommand
  | reply (r : RESPValue)

/-- How the connection loop ended: a clean return (`io.EOF` at a frame
boundary), the whole process killed by the `make([]byte, negative)`
panic, or fuel exhaustion (unreachable when the fuel exceeds the input
length). -/
inductive ConnEnd
  | eof
  | crashed
  | fuelOut
  deriving DecidableEq, Repr

/-- The `for` loop of `handleConnection`: read a frame; on `io.EOF`
return; on any other returned read error write an error to the client and
*continue*; on an empty command write an error and continue; otherwise
execute the command and write its response.  A panic during the frame
read writes nothing and kills the process.  `fuel` bounds the number of
iterations (each iteration of the source consumes at least one byte or
returns, so any fuel beyond the input length is enough). -/
def handleConnLoop : Nat → List Char → ServerState → Int →
    List ConnReply × ServerState × ConnEnd
  | 0, _, s, _ => ([], s, ConnEnd.fuelOut)
  | fuel + 1, input, s, now =>
      match readRESPArrayM input with
      | (FrameOutcome.eof, _) => ([], s, ConnEnd.eof)
      | (FrameOutcome.fatal, _) => ([], s, ConnEnd.crashed)
      | (FrameOutcome.protocol, rest) =>
          let (rs, s2) := handleConnLoop fuel rest s now
          (ConnReply.protocolError :: rs, s2)
      | (FrameOutcome.ok [], rest) =>
          let (rs, s2) := handleConnLoop fuel rest s now
          (ConnReply.emptyCommand :: rs, s2)
      | (FrameOutcome.ok (c :: cs), rest) =>
          let (resp, s2) := executeCommand s now (c :: cs)
          let (rs, s3) := handleConnLoop fuel rest s2 now
          (ConnReply.reply resp :: rs, s3)

/-! ### Helper lemmas on the map model -/

theorem alookup_ainsert_self {α : Type} (l : List (String × α)) (k : String)
    (v : α) : alookup (ainsert l k v) k = some v := by
  induction l with
  | nil => simp [ainsert, alookup]
  | cons p rest ih =>
      obtain ⟨k', v'⟩ := p
      by_cases h : k' = k <;> simp [ainsert, alookup, h, ih]

theorem alookup_aerase_self {α : Type} (l : List (String × α)) (k : String) :
    alookup (aerase l k) k = none := by
  induction l with
  | nil => simp [aerase, alookup]
  | cons p rest ih =>
      obtain ⟨k', v'⟩ := p
      by_cases h : k' = k <;> simp_all [aerase, alookup, h]

/-- `wrap64` is the identity on values already inside the signed 64-bit
range. -/
theorem wrap64_eq_self {x : Int} (h1 : -9223372036854775808 ≤ x)
    (h2 : x ≤ 9223372036854775807) : wrap64 x = x := by
  have h63 : (2 : Int) ^ 63 = 9223372036854775808 := by norm_num
  have h64 : (2 : Int) ^ 64 = 18446744073709551616 := by norm_num
  unfold wrap64
  rw [h63, h64]
  omega

/-! ### Helper lemmas on the data engine -/

/-- `Get` on a key that is absent from `data` reports absence, whatever
the expiry side does. -/
theorem Get_fst_absent (db : Database) (now : Int) (key : String)
    (h : alookup db.data key = none) : (db.Get now key).1 = ("", false) := by
  unfold Database.Get
  by_cases hexp : db.isExpired now key <;> simp [hexp, h]

/-- `Get` on a live key holding a string value returns it and leaves the
database untouched. -/
theorem Get_present_string (db : Database) (now : Int) (key : String)
    (v : Value) (h : alookup db.data key = some v)
    (ht : v.type = ValueType.string) (hexp : db.isExpired now key = false) :
    db.Get now key = ((v.strVal, true), db) := by
  unfold Database.Get
  simp [hexp, h, ht]

/-- Reading a key right after `Set` yields the stored string: the store
overwrote `data` and cleared any expiry entry. -/
theorem Get_after_Set (db : Database) (key value : String) (now : Int) :
    ((db.Set key value).Get now key).1 = (value, true) := by
  unfold Database.Set Database.Get Database.isExpired
  simp [alookup_aerase_self, alookup_ainsert_self]

/-- `TTL` right after `Set` is −1: `Set` deleted the expiry entry. -/
theorem TTL_after_Set (db : Database) (key value : String) (now : Int) :
    ((db.Set key value).TTL now key).1 = -1 := by
  unfold Database.Set Database.TTL
  simp [alookup_aerase_self, alookup_ainsert_self]

/-! ### The claims -/

/-- C1: the claim says WAL replay at startup re-applies every logged
record through the live dispatcher, so recovery from an empty state
equals live execution.  The code's `LoadAOF` only prints each record:
after the single live command `SET k v` the live engine answers `GET k`
with `"v"`, while recovery from the log record `"SET k v"` leaves the
engine empty.  The claim fails on the code. -/
theorem claim1_loadAOF_only_echoes :
    ((runCommands {} 0 [["SET", "k", "v"]]).db.Get 0 "k").1 = ("v", true) ∧
    ((LoadAOF {} ["SET k v"]).Get 0 "k").1 = ("", false) ∧
    LoadAOF {} ["SET k v"] ≠ (runCommands {} 0 [["SET", "k", "v"]]).db := by
  refine ⟨by decide, by decide, by decide⟩

/-- C2: the claim says a WAL record is appended iff the mutating command
succeeds and mutates state, so a wrong-arity `SET` appends nothing.  In
the code `executeCommand` appends the record before dispatch for every
write verb: the one-argument `SET k` is rejected for arity and mutates
nothing, yet the record `"SET k"` is appended.  The claim fails on the
code. -/
theorem claim2_failed_command_still_logged :
    (executeCommand {} 0 ["SET", "k"]).1.type = RESPType.error ∧
    (executeCommand {} 0 ["SET", "k"]).1.str =
      "ERR wrong number of arguments for 'set' command" ∧
    (executeCommand {} 0 ["SET", "k"]).2.db = ({} : Database) ∧
    (executeCommand {} 0 ["SET", "k"]).2.aof = ["SET k"] := by
  refine ⟨rfl, rfl, by decide, by decide⟩

/-- C3: the claim says `INCR` on a stored value at the int64 maximum is a
command error leaving the key unchanged.  In the code `intValue++` wraps:
`INCR` on `"9223372036854775807"` answers the int64 minimum and stores
it.  The claim fails on the code. -/
theorem claim3_incr_overflow_wraps :
    (handleIncr ["k"] (Database.Set {} "k" "9223372036854775807") 0).1 =
      intResp (-9223372036854775808) ∧
    (((handleIncr ["k"] (Database.Set {} "k" "9223372036854775807") 0).2.Get
        0 "k").1 = ("-9223372036854775808", true)) := by
  refine ⟨rfl, by decide⟩

/-- C4: the claim says snapshot save followed by load into a fresh engine
reproduces identical keys, values and residual TTLs.  In the code
`SaveRDB` reads each key through `Get`, so a hash key contributes
nothing to the payload and vanishes, and `LoadRDB` drops every `__ttl__`
record, so a string key with residual TTL 10 comes back with no expiry
(TTL −1).  The claim fails on the code. -/
theorem claim4_rdb_roundtrip_loses_state :
    alookup (Database.HSet {} "h" "f" "v").data "h" ≠ none ∧
    (SaveRDB (Database.HSet {} "h" "f" "v") 0).1 = [] ∧
    alookup (LoadRDB {} (SaveRDB (Database.HSet {} "h" "f" "v") 0).1).data "h"
      = none ∧
    ((((Database.Set {} "k" "v").Expire 0 "k" 10).2.TTL 0 "k").1 = 10 ∧
      ((LoadRDB {}
          (SaveRDB ((Database.Set {} "k" "v").Expire 0 "k" 10).2 0).1).TTL
        0 "k").1 = -1) := by
  refine ⟨by decide, by decide, by decide, by decide, by decide⟩

/-- C6: the claim says the WAL record encoding is injective on the verb
and argument list, even for arguments containing whitespace.  The code
joins with single spaces: `SET "a b" c` and `SET a "b c"` produce the
identical record `"SET a b c"` while mutating different keys.  The claim
fails on the code.  The final conjunct is the general collision law: for
every verb and all argument fragments, moving a space-bearing boundary
between two adjacent arguments leaves the record unchanged. -/
theorem claim6_aof_record_not_injective :
    joinArgs "SET" ["a b", "c"] = joinArgs "SET" ["a", "b c"] ∧
    (["a b", "c"] : List String) ≠ ["a", "b c"] ∧
    (executeCommand {} 0 ["SET", "a b", "c"]).2.aof =
      (executeCommand {} 0 ["SET", "a", "b c"]).2.aof ∧
    (executeCommand {} 0 ["SET", "a b", "c"]).2.db ≠
      (executeCommand {} 0 ["SET", "a", "b c"]).2.db ∧
    (∀ (verb a b c : String),
        joinArgs verb [a ++ " " ++ b, c] = joinArgs verb [a, b ++ " " ++ c]) := by
  refine ⟨by decide, by decide, by decide, by decide, ?_⟩
  intro verb a b c
  simp [joinArgs, List.foldl, String.append_assoc]

/-- `ReadString('\n')` on a stream whose first newline closes the prefix
`line`: it consumes exactly `line ++ ['\n']` and leaves the rest. -/
theorem readLine_append (line rest : List Char) (h : '\n' ∉ line) :
    readLine (line ++ '\n' :: rest) = (line ++ ['\n'], rest, true) := by
  induction line with
  | nil => simp [readLine]
  | cons c cs ih =>
      have hc : c ≠ '\n' := by
        intro hh
        exact h (by simp [hh])
      have hcs : '\n' ∉ cs := by
        intro hh
        exact h (by simp [hh])
      simp [readLine, hc, ih hcs]

/-- C5, counterexample: the claim says a protocol error is fatal — the
connection is closed and no further requests from the stream are
processed.  On the stream `"+x\r\n*1\r\n$4\r\nPING\r\n"` the first four
bytes each fail the `'*'` type-byte check, producing four error replies,
after which the well-formed `PING` frame is still read, dispatched and
answered `PONG`, and the loop ends only at EOF: a request after a
protocol error is processed. -/
theorem claim5_counterexample_requests_processed_after_protocol_error :
    (handleConnLoop 30 ("+x\r\n*1\r\n$4\r\nPING\r\n").toList {} 0).1 =
      [ConnReply.protocolError, ConnReply.protocolError,
        ConnReply.protocolError, ConnReply.protocolError,
        ConnReply.reply (simpleResp "PONG")] ∧
    (handleConnLoop 30 ("+x\r\n*1\r\n$4\r\nPING\r\n").toList {} 0).2.2 =
      ConnEnd.eof := by
  exact ⟨rfl, rfl⟩

/-- C5, amended: a protocol error returned by the frame reader — a bad
type byte, an unparsable array-length line, or a malformed frame such as
an element missing its `$` type byte — is answered with one error reply
and the loop continues reading the same stream at the next unconsumed
byte, processing whatever well-formed requests follow; the connection is
not closed.  The exception is a bulk-string length below −1, which
reaches `make([]byte, length)`, panics, and kills the whole process with
no reply. -/
theorem claim5_amended_protocol_error_continues :
    (∀ (fuel : Nat) (b : Char) (rest : List Char) (s : ServerState)
        (now : Int), b ≠ '*' →
        handleConnLoop (fuel + 1) (b :: rest) s now =
          (ConnReply.protocolError :: (handleConnLoop fuel rest s now).1,
            (handleConnLoop fuel rest s now).2)) ∧
    (∀ (fuel : Nat) (line rest : List Char) (s : ServerState) (now : Int),
        '\n' ∉ line →
        parseInt64 (trimSpaceGo (String.mk (line ++ ['\n']))) = none →
        handleConnLoop (fuel + 1) ('*' :: (line ++ '\n' :: rest)) s now =
          (ConnReply.protocolError :: (handleConnLoop fuel rest s now).1,
            (handleConnLoop fuel rest s now).2)) ∧
    (∀ (fuel : Nat) (b : Char) (rest : List Char) (s : ServerState)
        (now : Int), b ≠ '$' →
        handleConnLoop (fuel + 1)
            ('*' :: '1' :: '\r' :: '\n' :: b :: rest) s now =
          (ConnReply.protocolError :: (handleConnLoop fuel rest s now).1,
            (handleConnLoop fuel rest s now).2)) ∧
    (∀ (fuel : Nat) (tail : List Char) (s : ServerState) (now : Int),
        handleConnLoop (fuel + 1)
            ('*' :: '1' :: '\r' :: '\n' :: '$' :: '-' :: '2' :: '\r' :: '\n'
              :: tail) s now =
          ([], s, ConnEnd.crashed)) := by
  refine ⟨?_, ?_, ?_, ?_⟩
  · intro fuel b rest s now hb
    have h : readRESPArrayM (b :: rest) = (FrameOutcome.protocol, rest) := by
      unfold readRESPArrayM readByte
      simp [hb]
    simp [handleConnLoop, h]
  · intro fuel line rest s now hnl hparse
    have hl := readLine_append line rest hnl
    have h : readRESPArrayM ('*' :: (line ++ '\n' :: rest)) =
        (FrameOutcome.protocol, rest) := by
      unfold readRESPArrayM readByte
      simp [hl, hparse]
    simp [handleConnLoop, h]
  · intro fuel b rest s now hb
    have hl : readLine ('1' :: '\r' :: '\n' :: b :: rest) =
        (['1', '\r', '\n'], b :: rest, true) := by
      simp [readLine]
    have hp : parseInt64 (trimSpaceGo (String.mk ['1', '\r', '\n'])) =
        some 1 := by decide
    have hbulk : readBulkStringM (b :: rest) = (BulkOutcome.err, rest) := by
      unfold readBulkStringM readByte
      simp [hb]
    have h : readRESPArrayM ('*' :: '1' :: '\r' :: '\n' :: b :: rest) =
        (FrameOutcome.protocol, rest) := by
      unfold readRESPArrayM readByte
      simp [hl, hp, readBulks, hbulk]
    simp [handleConnLoop, h]
  · intro fuel tail s now
    have hl1 : readLine ('1' :: '\r' :: '\n' :: '$' :: '-' :: '2' :: '\r'
          :: '\n' :: tail) =
        (['1', '\r', '\n'], '$' :: '-' :: '2' :: '\r' :: '\n' :: tail, true) := by
      simp [readLine]
    have hl2 : readLine ('-' :: '2' :: '\r' :: '\n' :: tail) =
        (['-', '2', '\r', '\n'], tail, true) := by
      simp [readLine]
    have hp1 : parseInt64 (trimSpaceGo (String.mk ['1', '\r', '\n'])) =
        some 1 := by decide
    have hp2 : parseInt64 (trimSpaceGo (String.mk ['-', '2', '\r', '\n'])) =
        some (-2) := by decide
    have hbulk : readBulkStringM ('$' :: '-' :: '2' :: '\r' :: '\n' :: tail) =
        (BulkOutcome.fatal, tail) := by
      unfold readBulkStringM readByte
      simp [hl2, hp2]
    have h : readRESPArrayM ('*' :: '1' :: '\r' :: '\n' :: '$' :: '-' :: '2'
          :: '\r' :: '\n' :: tail) = (FrameOutcome.fatal, tail) := by
      unfold readRESPArrayM readByte
      simp [hl1, hp1, readBulks, hbulk]
    simp [handleConnLoop, h]

/-- C5, witness for the amended theorem: a bad type byte before a `PING`
frame (answered and followed by processing), an unparsable length line
`*x\r\n`, a missing `$` on the element of `*1\r\n`, and the
process-killing `*1\r\n$-2\r\n`. -/
theorem claim5_amended_witness :
    handleConnLoop 21 ('+' :: ("*1\r\n$4\r\nPING\r\n").toList) {} 0 =
      (ConnReply.protocolError ::
        (handleConnLoop 20 (("*1\r\n$4\r\nPING\r\n").toList) {} 0).1,
        (handleConnLoop 20 (("*1\r\n$4\r\nPING\r\n").toList) {} 0).2) ∧
    handleConnLoop 2 ('*' :: (['x', '\r'] ++ '\n' :: ([] : List Char))) {} 0 =
      (ConnReply.protocolError :: (handleConnLoop 1 [] {} 0).1,
        (handleConnLoop 1 [] {} 0).2) ∧
    handleConnLoop 2 ('*' :: '1' :: '\r' :: '\n' :: 'x' :: ([] : List Char))
        {} 0 =
      (ConnReply.protocolError :: (handleConnLoop 1 [] {} 0).1,
        (handleConnLoop 1 [] {} 0).2) ∧
    handleConnLoop 1 ('*' :: '1' :: '\r' :: '\n' :: '$' :: '-' :: '2' :: '\r'
        :: '\n' :: ([] : List Char)) {} 0 =
      ([], {}, ConnEnd.crashed) := by
  refine ⟨?_, ?_, ?_, ?_⟩
  · exact claim5_amended_protocol_error_continues.1 20 '+'
      (("*1\r\n$4\r\nPING\r\n").toList) {} 0 (by decide)
  · exact claim5_amended_protocol_error_continues.2.1 1 (['x', '\r']) [] {} 0
      (by decide) (by decide)
  · exact claim5_amended_protocol_error_continues.2.2.1 1 'x' [] {} 0
      (by decide)
  · exact claim5_amended_protocol_error_continues.2.2.2 0 [] {} 0

/-- A database holding the string key `"k"` with 9.9 seconds
(9 900 000 000 ns) of residual TTL at instant 0. -/
def ttlDb99 : Database :=
  { data := [("k", { type := ValueType.string, strVal := "x" })]
    expiry := [("k", 9900000000)] }

/-- A database holding the string key `"k"` with no expiry entry. -/
def dbNoExpiry : Database :=
  { data := [("k", { type := ValueType.string, strVal := "x" })] }

/-- A database holding the string key `"k"` whose expiry instant (−5 ns)
already passed at instant 0. -/
def dbPastExpiry : Database :=
  { data := [("k", { type := ValueType.string, strVal := "x" })]
    expiry := [("k", -5)] }

/-- C8, counterexample: the claim says the remaining time is reported
rounded, a remaining 9.9 seconds reporting 10.  With 9.9 seconds
(9 900 000 000 ns) remaining the code reports 9: Go's `int64(...)`
conversion truncates toward zero. -/
theorem claim8_counterexample_ttl_truncates :
    (ttlDb99.TTL 0 "k").1 = 9 ∧ ¬ (ttlDb99.TTL 0 "k").1 = 10 := by
  refine ⟨by decide, by decide⟩

/-- C8, amended: `TTL` returns −2 when the key is absent, −2 when its
expiry instant has passed (deleting the key), −1 when the key exists with
no expiry, and otherwise the remaining seconds truncated toward zero
(9.9 seconds reports 9, not 10). -/
theorem claim8_amended_ttl_spec :
    (∀ (db : Database) (now : Int) (key : String),
        alookup db.data key = none → (db.TTL now key).1 = -2) ∧
    (∀ (db : Database) (now : Int) (key : String) (v : Value),
        alookup db.data key = some v → alookup db.expiry key = none →
        (db.TTL now key).1 = -1) ∧
    (∀ (db : Database) (now : Int) (key : String) (v : Value) (e : Int),
        alookup db.data key = some v → alookup db.expiry key = some e →
        e ≤ now → (db.TTL now key).1 = -2) ∧
    (∀ (db : Database) (now : Int) (key : String) (v : Value) (e : Int),
        alookup db.data key = some v → alookup db.expiry key = some e →
        now < e → (db.TTL now key).1 = (e - now) / 1000000000) := by
  refine ⟨?_, ?_, ?_, ?_⟩
  · intro db now key h
    unfold Database.TTL
    simp [h]
  · intro db now key v h he
    unfold Database.TTL
    simp [h, he]
  · intro db now key v e h he hle
    unfold Database.TTL
    have : e - now ≤ 0 := by omega
    simp [h, he, this]
  · intro db now key v e h he hlt
    unfold Database.TTL
    have : ¬ (e - now ≤ 0) := by omega
    simp [h, he, this]

/-- C8, witness for the amended theorem: the four cases at concrete
databases (absent key; key with no expiry; key expired 5 ns ago; key with
9.9 s remaining, reported as 9). -/
theorem claim8_amended_witness :
    (Database.TTL {} 0 "k").1 = -2 ∧
    (dbNoExpiry.TTL 0 "k").1 = -1 ∧
    (dbPastExpiry.TTL 0 "k").1 = -2 ∧
    (ttlDb99.TTL 0 "k").1 = (9900000000 - 0) / 1000000000 := by
  refine ⟨?_, ?_, ?_, ?_⟩
  · exact claim8_amended_ttl_spec.1 {} 0 "k" (by decide)
  · exact claim8_amended_ttl_spec.2.1 dbNoExpiry 0 "k"
      ({ type := ValueType.string, strVal := "x" }) (by decide) (by decide)
  · exact claim8_amended_ttl_spec.2.2.1 dbPastExpiry 0 "k"
      ({ type := ValueType.string, strVal := "x" }) (-5) (by decide)
      (by decide) (by decide)
  · exact claim8_amended_ttl_spec.2.2.2 ttlDb99 0 "k"
      ({ type := ValueType.string, strVal := "x" }) 9900000000 (by decide)
      (by decide) (by decide)

/-- C7: `INCR` on a key absent from the data map answers integer 1 and
leaves the key holding `"1"`; `INCR` on a live key holding a string that
does not parse as a signed 64-bit integer answers the command error and
leaves the key's value unchanged. -/
theorem claim7_incr_absent_and_non_numeric :
    (∀ (db : Database) (key : String) (now : Int),
        alookup db.data key = none →
        (handleIncr [key] db now).1 = intResp 1 ∧
        ((handleIncr [key] db now).2.Get now key).1 = ("1", true)) ∧
    (∀ (db : Database) (key : String) (v : Value) (now : Int),
        alookup db.data key = some v → v.type = ValueType.string →
        parseInt64 v.strVal = none → db.isExpired now key = false →
        (handleIncr [key] db now).1 =
          errResp "ERR value is not an integer or out of range" ∧
        ((handleIncr [key] db now).2.Get now key).1 = (v.strVal, true)) := by
  constructor
  · intro db key now hnone
    have h1 : (db.Get now key).1 = ("", false) := Get_fst_absent db now key hnone
    have hw : wrap64 (0 + 1) = 1 := by decide
    have hfmt : formatInt (wrap64 (0 + 1)) = "1" := by decide
    rcases hGet : db.Get now key with ⟨⟨value, ex⟩, db2⟩
    rw [hGet] at h1
    simp only [Prod.mk.injEq] at h1
    obtain ⟨hv, hex⟩ := h1
    subst hv
    subst hex
    have hrun : handleIncr [key] db now =
        (intResp (wrap64 (0 + 1)), db2.Set key (formatInt (wrap64 (0 + 1)))) := by
      simp [handleIncr, hGet]
    constructor
    · rw [hrun, hw]
    · rw [hrun]
      show ((db2.Set key (formatInt (wrap64 (0 + 1)))).Get now key).1 = ("1", true)
      rw [Get_after_Set, hfmt]
  · intro db key v now hsome htype hparse hexp
    have hget : db.Get now key = ((v.strVal, true), db) :=
      Get_present_string db now key v hsome htype hexp
    constructor
    · simp only [handleIncr]
      rw [hget]
      simp [hparse]
    · simp only [handleIncr]
      rw [hget]
      simp [hparse, hget]

/-- C7, witness: `INCR k` on the empty engine answers 1 and stores `"1"`;
`INCR k` after `SET k abc` answers the command error and leaves `"abc"`. -/
theorem claim7_witness :
    ((handleIncr ["k"] {} 0).1 = intResp 1 ∧
      ((handleIncr ["k"] {} 0).2.Get 0 "k").1 = ("1", true)) ∧
    ((handleIncr ["k"] (Database.Set {} "k" "abc") 0).1 =
        errResp "ERR value is not an integer or out of range" ∧
      ((handleIncr ["k"] (Database.Set {} "k" "abc") 0).2.Get 0 "k").1 =
        ("abc", true)) := by
  constructor
  · exact claim7_incr_absent_and_non_numeric.1 {} "k" 0 (by decide)
  · exact claim7_incr_absent_and_non_numeric.2 (Database.Set {} "k" "abc") "k"
      ({ type := ValueType.string, strVal := "abc" }) 0 (by decide) (by decide)
      (by decide) (by decide)

/-- A database holding `"k" ↦ "5"` with a future expiry instant (100 ns). -/
def dbFutureExpiry : Database :=
  { data := [("k", { type := ValueType.string, strVal := "5" })]
    expiry := [("k", 100)] }

/-- A database holding `"k" ↦ "old"` with an expiry instant (−5 ns) that
already passed at instant 0, not yet purged. -/
def dbStale : Database :=
  { data := [("k", { type := ValueType.string, strVal := "old" })]
    expiry := [("k", -5)] }

/-- C9: `INCR` (and `DECR`) on a live numeric string key with an expiry
entry stores its result through `Database.Set`, which deletes the expiry
entry, so `TTL` on the key afterwards answers −1. -/
theorem claim9_incr_clears_ttl :
    ∀ (db : Database) (key : String) (v : Value) (n e now : Int),
      alookup db.data key = some v → v.type = ValueType.string →
      parseInt64 v.strVal = some n →
      alookup db.expiry key = some e → now ≤ e →
      ((handleIncr [key] db now).2.TTL now key).1 = -1 ∧
      ((handleDecr [key] db now).2.TTL now key).1 = -1 := by
  intro db key v n e now hsome htype hparse he hle
  have hexp : db.isExpired now key = false := by
    simp [Database.isExpired, he, decide_eq_false_iff_not]
    omega
  have hget : db.Get now key = ((v.strVal, true), db) :=
    Get_present_string db now key v hsome htype hexp
  constructor
  · simp only [handleIncr]
    rw [hget]
    simp only [hparse]
    exact TTL_after_Set db key _ now
  · simp only [handleDecr]
    rw [hget]
    simp only [hparse]
    exact TTL_after_Set db key _ now

/-- C9, witness: with `k` holding `"5"` under a future expiry, `INCR k`
and `DECR k` both leave `TTL k` at −1. -/
theorem claim9_witness :
    ((handleIncr ["k"] dbFutureExpiry 0).2.TTL 0 "k").1 = -1 ∧
    ((handleDecr ["k"] dbFutureExpiry 0).2.TTL 0 "k").1 = -1 := by
  exact claim9_incr_clears_ttl dbFutureExpiry "k"
    ({ type := ValueType.string, strVal := "5" }) 5 100 0 (by decide)
    (by decide) (by decide) (by decide) (by decide)

/-- C10, counterexample: the claim says `EXPIRE key seconds` on a
stale-but-unpurged key always installs a new *future* expiry after which
`GET` returns the old value.  With `EXPIRE k 10000000000` (a value
`strconv.Atoi` accepts), Go's `time.Duration(seconds) * time.Second`
wraps in `int64` to a negative duration of about −267 years, so `EXPIRE`
still answers 1 but installs a *past* instant, and the subsequent `GET`
lazily expires the key and answers null instead of the old value. -/
theorem claim10_counterexample_expire_overflow :
    (handleExpire ["k", "10000000000"] dbStale 0).1 = intResp 1 ∧
    alookup (handleExpire ["k", "10000000000"] dbStale 0).2.expiry "k" =
      some (0 + wrap64 (10000000000 * 1000000000)) ∧
    wrap64 (10000000000 * 1000000000) < 0 ∧
    ((handleExpire ["k", "10000000000"] dbStale 0).2.Get 0 "k").1 =
      ("", false) := by
  refine ⟨rfl, by decide, by decide, by decide⟩

/-- C10, amended: `EXPIRE` on a key whose expiry instant has passed but
which has not yet been purged does not perform the lazy-expiry check: it
answers integer 1; and provided `seconds * 10^9` does not overflow the
signed 64-bit duration, it installs the new future expiry
`now + seconds * 10^9`, after which `GET` returns the key's old value
(with larger `seconds` the wrapped duration can install a past instant
and `GET` answers null). -/
theorem claim10_expire_revives_stale_key :
    ∀ (db : Database) (key : String) (v : Value) (e now sec : Int)
      (secStr : String),
      alookup db.data key = some v → v.type = ValueType.string →
      alookup db.expiry key = some e → e < now → 0 < sec →
      sec * 1000000000 ≤ int64Max →
      parseInt64 secStr = some sec →
      (handleExpire [key, secStr] db now).1 = intResp 1 ∧
      alookup (handleExpire [key, secStr] db now).2.expiry key =
        some (now + sec * 1000000000) ∧
      ((handleExpire [key, secStr] db now).2.Get now key).1 =
        (v.strVal, true) := by
  intro db key v e now sec secStr hsome htype he hlt hsec hbound hparse
  have hmax : sec * 1000000000 ≤ 9223372036854775807 := by
    simpa [int64Max] using hbound
  have hw : wrap64 (sec * 1000000000) = sec * 1000000000 :=
    wrap64_eq_self (by omega) hmax
  have hexpire : db.Expire now key sec =
      (true, { db with expiry := ainsert db.expiry key (now + sec * 1000000000) }) := by
    unfold Database.Expire
    rw [hsome, hw]
  have hhandle : handleExpire [key, secStr] db now =
      (intResp 1, { db with expiry := ainsert db.expiry key (now + sec * 1000000000) }) := by
    simp only [handleExpire, hparse]
    rw [hexpire]
    simp
  refine ⟨by rw [hhandle], ?_, ?_⟩
  · rw [hhandle]
    exact alookup_ainsert_self db.expiry key (now + sec * 1000000000)
  · rw [hhandle]
    have hexp2 :
        Database.isExpired
          { db with expiry := ainsert db.expiry key (now + sec * 1000000000) }
          now key = false := by
      simp [Database.isExpired, alookup_ainsert_self, decide_eq_false_iff_not]
      nlinarith
    unfold Database.Get
    simp [hexp2, hsome, htype]

/-- C10, witness: with `k` holding `"old"` and an expiry 5 ns in the
past, `EXPIRE k 10` answers 1, installs expiry instant 10^10, and `GET k`
still answers `"old"`. -/
theorem claim10_witness :
    (handleExpire ["k", "10"] dbStale 0).1 = intResp 1 ∧
    alookup (handleExpire ["k", "10"] dbStale 0).2.expiry "k" =
      some (0 + 10 * 1000000000) ∧
    ((handleExpire ["k", "10"] dbStale 0).2.Get 0 "k").1 = ("old", true) := by
  exact claim10_expire_revives_stale_key dbStale "k"
    ({ type := ValueType.string, strVal := "old" }) (-5) 0 10 "10" (by decide)
    (by decide) (by decide) (by decide) (by decide) (by decide) (by decide)

end RedisGo
